import Mathlib

/-!
Verification development for the financial-rag service.

This file gives a shallow embedding, in Lean 4, of the serving control plane
of the repository: environment configuration (`src/config.py`), the auth and
rate-limit request gates (`src/deps.py`, `src/rate_limit.py`), index
persistence and the load-time compatibility check (`src/embeddings.py`),
retrieval response shaping (`src/retrieval.py`), and the HTTP handlers and
ingestion orchestrator (`app.py`).  Python dictionaries keyed by strings are
embedded as association lists or as functions into `Option`; wall-clock time
(`time.time()`) is embedded as a rational number; exceptions are embedded as
explicit `Except` / `Option` error values.  External collaborators (PDF
loading, the FAISS vector store, the LLM) are embedded as opaque function
parameters, exactly as the spec treats them (black boxes with fixed
interfaces).

The file is laid out as definitions first (the embedding), then the
theorems that settle each specification claim.
-/

namespace FinancialRag

/-- Embeds FastAPI `HTTPException(status_code, detail)`. -/
structure HTTPException where
  status_code : Nat
  detail : String
deriving DecidableEq, Repr

/-- Embeds the `Settings` class of `src/config.py`.  Pydantic `Literal`
fields are embedded as `String` (their runtime representation); the
admissible values are enforced where the code's type annotation enforces
them, via explicit hypotheses in the theorems. -/
structure Settings where
  ENV : String
  EMBEDDINGS_PROVIDER : String
  EMBEDDINGS_MODEL : String
  DEVICE : String
  DOCS_PATH : String
  DEFAULT_K : Nat
  DEFAULT_MODEL : String
  OPENAI_API_KEY : String
  API_KEY : String
  ADMIN_API_KEY : String
  RATE_LIMIT_PER_MINUTE : Nat
  CORS_ORIGINS : String
deriving DecidableEq, Repr

/-- The default field values of `Settings` in `src/config.py` (the values
used when no environment override is present). -/
def defaultSettings : Settings where
  ENV := "local"
  EMBEDDINGS_PROVIDER := "sentence_transformers"
  EMBEDDINGS_MODEL := "sentence-transformers/all-MiniLM-L6-v2"
  DEVICE := "cuda"
  DOCS_PATH := "./.data"
  DEFAULT_K := 4
  DEFAULT_MODEL := "gpt-4o-mini"
  OPENAI_API_KEY := ""
  API_KEY := ""
  ADMIN_API_KEY := ""
  RATE_LIMIT_PER_MINUTE := 60
  CORS_ORIGINS := ""

/-- Python truthiness of an optional string: `None` and the empty string are
falsy, every other string is truthy.  Used to embed `if not x:` and
`x or y` on `str | None` values. -/
def pyTruthyStr : Option String → Bool
  | none => false
  | some s => s ≠ ""

/-- Embeds Python `x or dflt` where `x : str | None` and `dflt : str`:
falls back to `dflt` when `x` is `None` or the empty string. -/
def pyOrStr (x : Option String) (dflt : String) : String :=
  match x with
  | none => dflt
  | some s => if s = "" then dflt else s

/-! ## Auth gates (`src/deps.py`) -/

/-- Embeds `require_api_key` of `src/deps.py`: the dependency that gates
`/query`.  `x_api_key` is the `X-API-Key` header (`none` when absent).
Returns `none` when the request is allowed, `some e` when the gate raises
`e`.  Note the code's `if not x_api_key:` treats an empty header the same
as a missing one. -/
def require_api_key (s : Settings) (x_api_key : Option String) : Option HTTPException :=
  if s.ENV ≠ "prod" then none
  else if pyTruthyStr x_api_key = false then some ⟨401, "Missing X-API-Key header"⟩
  else if x_api_key ≠ some s.API_KEY then some ⟨403, "Invalid API key"⟩
  else none

/-- Embeds `require_admin_key` of `src/deps.py`: the dependency that gates
`/ingest` and `/ingest/job_id`. -/
def require_admin_key (s : Settings) (x_admin_key : Option String) : Option HTTPException :=
  if s.ENV ≠ "prod" then none
  else if pyTruthyStr x_admin_key = false then some ⟨401, "Missing X-Admin-Key header"⟩
  else if x_admin_key ≠ some s.ADMIN_API_KEY then some ⟨403, "Invalid Admin key"⟩
  else none

/-! ## Rate limiter (`src/rate_limit.py`) -/

/-- The request headers and connection data consulted by the rate limiter
(`RateLimiter._get_key`). -/
structure Request where
  x_api_key : Option String
  x_forwarded_for : Option String
  client_host : String

/-- Embeds the `RateLimiter` class state: the ceiling passed to the
constructor and the per-key timestamp table (`defaultdict(list)`, embedded
as a total function defaulting to `[]`). -/
structure RateLimiter where
  requests_per_minute : Nat
  requests : String → List ℚ

/-- Embeds `RateLimiter._get_key`: API key if (truthy-)present, else first
entry of `X-Forwarded-For`, else the connection host. -/
def RateLimiter.getKey (req : Request) : String :=
  match req.x_api_key with
  | some k =>
    if k ≠ "" then "key:" ++ k
    else
      match req.x_forwarded_for with
      | some f => if f ≠ "" then "ip:" ++ ((f.splitOn ",").headD "").trim
                  else "ip:" ++ req.client_host
      | none => "ip:" ++ req.client_host
  | none =>
    match req.x_forwarded_for with
    | some f => if f ≠ "" then "ip:" ++ ((f.splitOn ",").headD "").trim
                else "ip:" ++ req.client_host
    | none => "ip:" ++ req.client_host

/-- Point update of the timestamp table, embedding
`self.requests[key] = v`. -/
def RateLimiter.setKeyList (rl : RateLimiter) (key : String) (v : List ℚ) : RateLimiter :=
  { rl with requests := fun k2 => if k2 = key then v else rl.requests k2 }

/-- Embeds `RateLimiter.check`.  `now` is the value of `time.time()` at the
call.  Returns the limiter state after the call together with `none`
(request allowed) or `some e` (the raised 429).  Mirrors the code exactly:
the pruned list is written back to the table before the ceiling test, so a
rejected call still stores the pruned list. -/
def RateLimiter.check (rl : RateLimiter) (req : Request) (now : ℚ) :
    RateLimiter × Option HTTPException :=
  let key := RateLimiter.getKey req
  let window_start := now - 60
  let pruned := (rl.requests key).filter (fun t => window_start < t)
  if rl.requests_per_minute ≤ pruned.length then
    (rl.setKeyList key pruned,
     some ⟨429, "Rate limit exceeded. Max " ++ toString rl.requests_per_minute ++
               " requests/minute. Try again shortly."⟩)
  else
    (rl.setKeyList key (pruned ++ [now]), none)

/-- Embeds the module-level singleton `limiter = RateLimiter(requests_per_minute=60)`
of `src/rate_limit.py`.  The ambient settings are in scope at that line but
the constructor argument is the literal `60`; the parameter records that the
construction does not consult the configuration. -/
def limiter (_s : Settings) : RateLimiter :=
  { requests_per_minute := 60, requests := fun _ => [] }

/-- Embeds `check_rate_limit` of `src/deps.py`: the dependency that gates
`/query`.  Outside production mode it returns before touching the
limiter. -/
def check_rate_limit (s : Settings) (rl : RateLimiter) (req : Request) (now : ℚ) :
    RateLimiter × Option HTTPException :=
  if s.ENV ≠ "prod" then (rl, none)
  else rl.check req now

/-- A limiter with ceiling `n` and an empty table: the state of the module
singleton at process start (the singleton uses `n = 60`). -/
def freshLimiter (n : Nat) : RateLimiter :=
  { requests_per_minute := n, requests := fun _ => [] }

/-- Threads a sequence of `check` calls (request, `time.time()` value)
through the limiter, keeping the final state. -/
def runChecks (rl : RateLimiter) (calls : List (Request × ℚ)) : RateLimiter :=
  calls.foldl (fun r p => (r.check p.1 p.2).1) rl

/-- The times of the calls in a trace that the limiter admitted for the
given identity key, in order. -/
def admittedTimes (rl : RateLimiter) (calls : List (Request × ℚ)) (k : String) : List ℚ :=
  match calls with
  | [] => []
  | p :: rest =>
    let res := rl.check p.1 p.2
    let tail := admittedTimes res.1 rest k
    if RateLimiter.getKey p.1 = k ∧ res.2 = none then p.2 :: tail else tail

/-- Specification-level sliding-window admission on a single key: a call at
time `t` is admitted when fewer than `n` already-admitted times lie in the
trailing window starting at `t - 60`, and then its time is recorded. -/
def slidingAdmit (n : Nat) (adm : List ℚ) (t : ℚ) : List ℚ :=
  if (adm.filter (fun u => decide (t - 60 < u))).length < n then adm ++ [t] else adm

/-- Folds `slidingAdmit` over the call times of one key. -/
def slidingRunFrom (n : Nat) (adm : List ℚ) (ts : List ℚ) : List ℚ :=
  ts.foldl (slidingAdmit n) adm

/-- The times of the calls in a trace whose derived identity key is `k`. -/
def keyTimes (k : String) (calls : List (Request × ℚ)) : List ℚ :=
  (calls.filter (fun p => decide (RateLimiter.getKey p.1 = k))).map Prod.snd

/-! ## Documents, citations and embeddings (`src/retrieval.py`, `src/embeddings.py`) -/

/-- Embeds a LangChain `Document` as consumed by this repository: its text
and the metadata entries the code reads (`metadata.get` returning `None`
when absent is embedded as `Option`).  The `section` metadata key is named
`sectionKey` because `section` is a Lean keyword. -/
structure Doc where
  page_content : String
  source : Option String
  chunk_id : Option String
  page : Option Int
  sectionKey : Option String
deriving DecidableEq, Repr

/-- Embeds the citation dict built by `doc_to_citation` in
`src/retrieval.py`. -/
structure Citation where
  source : String
  chunk_id : String
  snippet : String
  page : Option Int
  sectionKey : Option String
deriving DecidableEq, Repr

/-- Embeds `doc_to_citation(doc, index)` of `src/retrieval.py`: defaulted
metadata extraction plus a 200-character stripped snippet. -/
def doc_to_citation (doc : Doc) (index : Nat) : Citation where
  source := doc.source.getD "unknown"
  chunk_id := doc.chunk_id.getD ("chunk_" ++ toString index)
  snippet := (doc.page_content.take 200).trim
  page := doc.page
  sectionKey := doc.sectionKey

/-- Embeds the Python exception kinds raised by `src/embeddings.py`. -/
inductive PyError where
  | fileNotFound (msg : String)
  | valueError (msg : String)
deriving DecidableEq, Repr

/-- Embeds the embeddings object produced by `get_embeddings`: only its
provider identity and model name are observable to the rest of the
program (the API key and device arguments configure the black-box
collaborator and are elided). -/
structure EmbeddingsHandle where
  provider : String
  model_name : String
deriving DecidableEq, Repr

/-- Embeds `get_embeddings` of `src/embeddings.py`: `provider or
settings.EMBEDDINGS_PROVIDER` / `model_name or settings.EMBEDDINGS_MODEL`
defaulting, then dispatch on the provider with a `ValueError` for an
unknown one. -/
def get_embeddings (s : Settings) (provider : Option String) (model_name : Option String) :
    Except PyError EmbeddingsHandle :=
  let p := pyOrStr provider s.EMBEDDINGS_PROVIDER
  let m := pyOrStr model_name s.EMBEDDINGS_MODEL
  if p = "openai" then .ok { provider := p, model_name := m }
  else if p = "sentence_transformers" then .ok { provider := p, model_name := m }
  else .error (.valueError ("Unknown provider: " ++ p))

/-- Embeds a loaded FAISS vector store: the embeddings object bound at
load/create time, plus the similarity search it offers (`as_retriever`
with `search_kwargs k` retrieves `search question k`).  The search
behavior itself is an external collaborator and stays abstract. -/
structure FAISS where
  embeddings : EmbeddingsHandle
  search : String → Nat → List Doc

/-- The parsed `metadata.json` record written by `save_index`. -/
structure IndexMetadata where
  provider : String
  model : String
deriving DecidableEq, Repr

/-- The on-disk contents of a persisted index directory as seen by
`load_index`: whether the directory exists, the parsed `metadata.json`
record when that file exists, and the serialized vectors (abstracted as
the search behavior they induce once loaded). -/
structure PersistedIndex where
  dirExists : Bool
  metadata : Option IndexMetadata
  content : String → Nat → List Doc

/-- Embeds `load_index` of `src/embeddings.py`: missing directory raises
`FileNotFoundError`; a present `metadata.json` whose provider or model
differs from the current configuration raises `ValueError` before any
loading; otherwise the index is loaded with embeddings obtained from the
current configuration. -/
def load_index (s : Settings) (index_dir : String) (disk : PersistedIndex)
    (model_name : String) : Except PyError FAISS :=
  if disk.dirExists = false then
    .error (.fileNotFound ("Index not found at " ++ index_dir ++ ". Run create_index first."))
  else
    match disk.metadata with
    | some saved =>
      if saved.provider ≠ s.EMBEDDINGS_PROVIDER then
        .error (.valueError ("Index was created with " ++ saved.provider ++
          ", but current provider is " ++ s.EMBEDDINGS_PROVIDER))
      else if saved.model ≠ s.EMBEDDINGS_MODEL then
        .error (.valueError ("Index was created with " ++ saved.model ++
          ", but current model is " ++ s.EMBEDDINGS_MODEL))
      else
        (get_embeddings s none (some model_name)).map
          (fun emb => { embeddings := emb, search := disk.content })
    | none =>
      (get_embeddings s none (some model_name)).map
        (fun emb => { embeddings := emb, search := disk.content })

/-! ## Retrieval chain and query shaping (`src/retrieval.py`) -/

/-- The `DEFAULT_MODEL` module constant of `src/retrieval.py`. -/
def DEFAULT_MODEL : String := "gpt-4o-mini"

/-- The `DEFAULT_K` module constant of `src/retrieval.py`. -/
def DEFAULT_K : Nat := 4

/-- Embeds `format_docs`: page contents joined by blank lines. -/
def format_docs (docs : List Doc) : String :=
  String.intercalate "\n\n" (docs.map (fun d => d.page_content))

/-- Embeds `index.as_retriever(search_kwargs k)` followed by
`retriever.invoke`. -/
def as_retriever (index : FAISS) (k : Nat) : String → List Doc :=
  fun question => index.search question k

/-- Renders `PROMPT_TEMPLATE` of `src/retrieval.py` at a context and a
question (the literal template's apostrophe is elided). -/
def prompt_template_render (context question : String) : String :=
  "Use the following context to answer the question.\n" ++
  "If you cannot answer based on the context, say I dont have enough information.\n\n" ++
  "Context:\n" ++ context ++ "\n\nQuestion: " ++ question ++ "\n\nAnswer:"

/-- Embeds the LCEL chain built by `create_chain`: `chain.retriever` is the
stored retriever, and invoking the chain re-runs the retriever, formats the
context into the prompt and calls the LLM. -/
structure Chain where
  retriever : String → List Doc
  run : String → String

/-- Embeds `create_chain(index, model, k)` of `src/retrieval.py`.  `get_llm`
is the black-box LLM collaborator: model name to completion function. -/
def create_chain (get_llm : String → String → String) (index : FAISS)
    (model : String) (k : Nat) : Chain where
  retriever := as_retriever index k
  run := fun question =>
    get_llm model (prompt_template_render (format_docs (as_retriever index k question)) question)

/-- A Python value stored in the response dict of `query`. -/
inductive PyVal where
  | str (s : String)
  | citationList (cs : List Citation)
deriving DecidableEq, Repr

/-- String-keyed Python dict lookup (raising `KeyError` when absent is
embedded as `none`). -/
def dictGet (d : List (String × PyVal)) (key : String) : Option PyVal :=
  (d.find? (fun p => p.1 == key)).map Prod.snd

/-- Embeds `query(chain, question)` of `src/retrieval.py`: invokes the
retriever and the chain, shapes the docs into citations (enumerate order),
and returns a dict with keys `answer` and `citations` (the comment in the
source notes the key was changed from `sources`). -/
def query (chain : Chain) (question : String) : List (String × PyVal) :=
  let docs := chain.retriever question
  let answer := chain.run question
  let citations := docs.enum.map (fun p => doc_to_citation p.2 p.1)
  [("answer", PyVal.str answer), ("citations", PyVal.citationList citations)]

/-! ## Application state and the query/startup handlers (`app.py`) -/

/-- Embeds the `status` strings an `IngestJob` record takes in `app.py`. -/
inductive JobStatus where
  | pending
  | running
  | completed
  | failed
deriving DecidableEq, Repr

/-- Embeds the job dict stored in `app.state.ingest_jobs` (`app.py`). -/
structure IngestJob where
  job_id : String
  status : JobStatus
  progress : Option String
  chunks_processed : Option Nat
  error : Option String
  started_at : ℚ
  completed_at : Option ℚ
deriving DecidableEq, Repr

/-- Embeds the `RAGState` dataclass of `app.py`: the published snapshot. -/
structure RAGState where
  chain : Chain
  index : FAISS

/-- Embeds `app.state`: the published snapshot reference and the job
registry (a string-keyed dict, embedded as a function into `Option`). -/
structure AppState where
  rag : Option RAGState
  ingest_jobs : String → Option IngestJob

/-- Embeds the `startup` handler of `app.py`: try to load the persisted
index with the current configuration and, on success only, publish a
snapshot; any exception is swallowed and the state is left as it was. -/
def startup (s : Settings) (get_llm : String → String → String) (index_dir : String)
    (disk : PersistedIndex) (st : AppState) : AppState :=
  match load_index s index_dir disk s.EMBEDDINGS_MODEL with
  | .ok index =>
    { st with rag := some { chain := create_chain get_llm index DEFAULT_MODEL DEFAULT_K,
                            index := index } }
  | .error _ => st

/-- Embeds the `/query` request body (`QueryRequest` in `app.py`; `k`
defaults to 4 at the HTTP layer). -/
structure QueryRequest where
  question : String
  k : Nat
deriving DecidableEq, Repr

/-- Embeds the `/query` response model (`QueryResponse` in `app.py`): note
its field is named `sources`, not `citations`. -/
structure QueryResponse where
  answer : String
  sources : List Citation
deriving DecidableEq, Repr

/-- Embeds the `query_rag` handler of `app.py`.  With no snapshot it raises
400.  Otherwise it calls `query(rag.chain, request.question)` — note that
`request.k` is never forwarded — and then reads `result["answer"]` and
`result["sources"]` from the returned dict; the fallthrough branch embeds
the `except Exception` handler, which catches the `KeyError` raised when a
key is absent and re-raises it as a 500 whose detail is the stringified
exception. -/
def query_rag (rag : Option RAGState) (req : QueryRequest) : Except HTTPException QueryResponse :=
  match rag with
  | none => .error ⟨400, "No index loaded. Call /ingest first"⟩
  | some r =>
    let result := query r.chain req.question
    match dictGet result "answer", dictGet result "sources" with
    | some (.str a), some (.citationList cs) => .ok { answer := a, sources := cs }
    | _, _ => .error ⟨500, "KeyError: sources"⟩

/-! ## Ingestion orchestrator (`app.py`) -/

/-- The stage collaborators invoked by `run_ingest_job`, with their
outcomes: each stage either returns its value or raises (the raised
exception stringified, as `str(e)` records it on the job). -/
structure IngestStages where
  ingest : Except String (List Doc)
  create_index : List Doc → Except String FAISS
  save_index : FAISS → Except String Unit
  create_chain : FAISS → Except String Chain

/-- The sequential composition of the stages in the `try` block of
`run_ingest_job`: the first raising stage aborts the run with its error. -/
def IngestStages.result (c : IngestStages) : Except String (List Doc × FAISS × Chain) :=
  match c.ingest with
  | .error e => .error e
  | .ok chunks =>
    match c.create_index chunks with
    | .error e => .error e
    | .ok index =>
      match c.save_index index with
      | .error e => .error e
      | .ok _ =>
        match c.create_chain index with
        | .error e => .error e
        | .ok chain => .ok (chunks, index, chain)

/-- Applies an update to the record stored under `id` in the job registry,
embedding `jobs[job_id][field] = value`.  (A no-op when the id is absent;
`run_ingest_job` is only scheduled with the id the handler just
inserted.) -/
def AppState.setJob (st : AppState) (id : String) (f : IngestJob → IngestJob) : AppState :=
  { st with ingest_jobs := fun j => if j = id then (st.ingest_jobs j).map f else st.ingest_jobs j }

/-- The trailing statements of the `except` branch of `run_ingest_job`:
mark failed, record the stringified error, stamp completion. -/
def failStates (id : String) (e : String) (now : ℚ) (st : AppState) : List AppState :=
  let f1 := st.setJob id (fun j => { j with status := .failed })
  let f2 := f1.setJob id (fun j => { j with error := some e })
  let f3 := f2.setJob id (fun j => { j with completed_at := some now })
  [f1, f2, f3]

/-- Embeds `run_ingest_job` of `app.py` as the sequence of application
states after each mutating statement, in program order (`now` stands for
the completion timestamp).  On success the snapshot swap (line 100)
happens after all four stages; on any stage exception control jumps to the
`except` branch without touching the snapshot. -/
def run_ingest_job_states (c : IngestStages) (now : ℚ) (id : String) (st : AppState) :
    List AppState :=
  let s1 := st.setJob id (fun j => { j with status := .running })
  let s2 := s1.setJob id (fun j => { j with progress := some "Starting ingestion..." })
  let s3 := s2.setJob id (fun j => { j with progress := some "Loading documents..." })
  match c.ingest with
  | .error e => s1 :: s2 :: s3 :: failStates id e now s3
  | .ok chunks =>
    let s4 := s3.setJob id (fun j => { j with progress := some "Creating embeddings..." })
    match c.create_index chunks with
    | .error e => s1 :: s2 :: s3 :: s4 :: failStates id e now s4
    | .ok index =>
      let s5 := s4.setJob id (fun j => { j with progress := some "Saving index..." })
      match c.save_index index with
      | .error e => s1 :: s2 :: s3 :: s4 :: s5 :: failStates id e now s5
      | .ok _ =>
        match c.create_chain index with
        | .error e => s1 :: s2 :: s3 :: s4 :: s5 :: failStates id e now s5
        | .ok chain =>
          let s6 := { s5 with rag := some { chain := chain, index := index } }
          let s7 := s6.setJob id (fun j => { j with status := .completed })
          let s8 := s7.setJob id (fun j => { j with chunks_processed := some chunks.length })
          let s9 := s8.setJob id (fun j => { j with completed_at := some now })
          [s1, s2, s3, s4, s5, s6, s7, s8, s9]

/-- The final application state once `run_ingest_job` returns. -/
def run_ingest_job (c : IngestStages) (now : ℚ) (id : String) (st : AppState) : AppState :=
  (run_ingest_job_states c now id st).getLastD st

/-- The job record inserted by the production branch of the `/ingest`
handler before the background task is scheduled. -/
def newIngestJob (id : String) (started_at : ℚ) : IngestJob where
  job_id := id
  status := .pending
  progress := none
  chunks_processed := none
  error := none
  started_at := started_at
  completed_at := none

/-- Embeds the registry insertion done by the production branch of
`ingest_documents` (`app.py` lines 148 to 157). -/
def ingest_documents_prod (id : String) (started_at : ℚ) (st : AppState) : AppState :=
  { st with ingest_jobs :=
      fun j => if j = id then some (newIngestJob id started_at) else st.ingest_jobs j }

/-- The status of the job stored under `id`, if any. -/
def jobStatus (st : AppState) (id : String) : Option JobStatus :=
  (st.ingest_jobs id).map IngestJob.status

/-- The recorded error of the job stored under `id`, if any. -/
def jobError (st : AppState) (id : String) : Option String :=
  (st.ingest_jobs id).bind IngestJob.error

/-- The recorded chunk count of the job stored under `id`, if any. -/
def jobChunks (st : AppState) (id : String) : Option Nat :=
  (st.ingest_jobs id).bind IngestJob.chunks_processed

/-- The status transition relation the spec declares for ingest jobs: stay
in place, pending to running, or running to a terminal state.  In
particular no step leaves completed or failed. -/
def allowedTransition (a b : Option JobStatus) : Bool :=
  a == b ||
  (a == some .pending && b == some .running) ||
  (a == some .running && (b == some .completed || b == some .failed))

/-! ## Concrete instances used by counterexamples and witnesses -/

/-- A FAISS index with no documents, for concrete scenarios. -/
def emptyFAISS : FAISS where
  embeddings := { provider := "sentence_transformers", model_name := "m" }
  search := fun _ _ => []

/-- A chain that retrieves nothing and answers the empty string, for
concrete scenarios. -/
def trivialChain : Chain where
  retriever := fun _ => []
  run := fun _ => ""

/-- A stage bundle whose first stage raises. -/
def failingStages : IngestStages where
  ingest := .error "boom"
  create_index := fun _ => .error "unreached"
  save_index := fun _ => .ok ()
  create_chain := fun _ => .error "unreached"

/-- A stage bundle where every stage succeeds. -/
def succeedingStages : IngestStages where
  ingest := .ok []
  create_index := fun _ => .ok emptyFAISS
  save_index := fun _ => .ok ()
  create_chain := fun _ => .ok trivialChain

/-- An application state holding one freshly created (pending) job. -/
def oneJobState : AppState where
  rag := none
  ingest_jobs := fun j => if j = "job1" then some (newIngestJob "job1" 0) else none

/-- A request authenticated with API key `k`, for concrete limiter
scenarios (its derived identity key is `key:k`). -/
def c2Req : Request where
  x_api_key := some "k"
  x_forwarded_for := none
  client_host := "host"

/-- Three checks for the same identity key at seconds 0, 10 and 20. -/
def c2Calls : List (Request × ℚ) := [(c2Req, 0), (c2Req, 10), (c2Req, 20)]

/-- A configuration with a non-default rate-limit ceiling, the failing input
for claim C3. -/
def c3Settings : Settings :=
  { defaultSettings with ENV := "prod", RATE_LIMIT_PER_MINUTE := 100 }

/-- The production configuration with an empty query secret, the
counterexample input for claim C4. -/
def c4Settings : Settings :=
  { defaultSettings with ENV := "prod", API_KEY := "" }

/-- A persisted directory whose metadata was recorded under the openai
provider. -/
def c5Disk : PersistedIndex where
  dirExists := true
  metadata := some { provider := "openai", model := "text-embedding-3-small" }
  content := fun _ _ => []

/-- A persisted directory that exists but has no metadata record. -/
def c10Disk : PersistedIndex where
  dirExists := true
  metadata := none
  content := fun _ _ => []

/-- The application state at process start: no snapshot, no jobs. -/
def emptyAppState : AppState where
  rag := none
  ingest_jobs := fun _ => none

/-! ## Theorems for claims C3, C4, C9 -/

/-- Claim C3: the claim says the ceiling applied by the limiter that gates
`/query` equals the configured `RATE_LIMIT_PER_MINUTE` for every configured
value.  The code hardcodes `RateLimiter(requests_per_minute=60)`: with
`RATE_LIMIT_PER_MINUTE = 100` the constructed limiter still has ceiling 60,
contradicting the claim. -/
theorem c3_ceiling_ignores_configured_value :
    (limiter c3Settings).requests_per_minute = 60 ∧
    c3Settings.RATE_LIMIT_PER_MINUTE = 100 ∧
    (limiter c3Settings).requests_per_minute ≠ c3Settings.RATE_LIMIT_PER_MINUTE :=
  ⟨rfl, rfl, by decide⟩

/-- Claim C4 counterexample: with the configured secret equal to the empty
string and the credential header present with value `""` — so the header
exactly equals the configured secret — the claim says the gate allows; the
code instead raises 401, because `if not x_api_key:` treats a present-but-
empty header like a missing one. -/
theorem c4_counterexample_empty_header :
    c4Settings.ENV = "prod" ∧
    c4Settings.API_KEY = "" ∧
    require_api_key c4Settings (some "") ≠ none ∧
    require_api_key c4Settings (some "") = some ⟨401, "Missing X-API-Key header"⟩ := by
  refine ⟨rfl, rfl, ?_, rfl⟩
  decide

/-- Claim C4 as amended: in production mode each gate raises 401 iff the
header is absent or empty, raises 403 iff the header is present, nonempty
and differs from the configured secret, and allows iff the header is
present, nonempty and equals the configured secret; consequently an empty
configured secret can never be matched. -/
theorem c4_amended_auth_gates (s : Settings) (h : s.ENV = "prod") (hdr : Option String) :
    (require_api_key s hdr = some ⟨401, "Missing X-API-Key header"⟩ ↔
      hdr = none ∨ hdr = some "") ∧
    (require_api_key s hdr = some ⟨403, "Invalid API key"⟩ ↔
      ∃ v, hdr = some v ∧ v ≠ "" ∧ v ≠ s.API_KEY) ∧
    (require_api_key s hdr = none ↔ hdr = some s.API_KEY ∧ s.API_KEY ≠ "") ∧
    (require_admin_key s hdr = some ⟨401, "Missing X-Admin-Key header"⟩ ↔
      hdr = none ∨ hdr = some "") ∧
    (require_admin_key s hdr = some ⟨403, "Invalid Admin key"⟩ ↔
      ∃ v, hdr = some v ∧ v ≠ "" ∧ v ≠ s.ADMIN_API_KEY) ∧
    (require_admin_key s hdr = none ↔ hdr = some s.ADMIN_API_KEY ∧ s.ADMIN_API_KEY ≠ "") := by
  cases hdr with
  | none =>
    simp [require_api_key, require_admin_key, h, pyTruthyStr]
  | some v =>
    by_cases hv : v = ""
    · subst hv
      simp [require_api_key, require_admin_key, h, pyTruthyStr]
      exact ⟨fun hk => hk.symm, fun hk => hk.symm⟩
    · by_cases hk : v = s.API_KEY <;> by_cases ha : v = s.ADMIN_API_KEY <;>
        simp [require_api_key, require_admin_key, h, pyTruthyStr, hv, hk, ha] <;>
        simp_all [eq_comm]

/-- Witness for `c4_amended_auth_gates` at a concrete production
configuration and a header holding the query secret. -/
theorem c4_amended_auth_gates_witness :
    (require_api_key { defaultSettings with ENV := "prod", API_KEY := "k1", ADMIN_API_KEY := "k2" }
        (some "k1") = some ⟨401, "Missing X-API-Key header"⟩ ↔
      (some "k1" : Option String) = none ∨ (some "k1" : Option String) = some "") ∧
    (require_api_key { defaultSettings with ENV := "prod", API_KEY := "k1", ADMIN_API_KEY := "k2" }
        (some "k1") = some ⟨403, "Invalid API key"⟩ ↔
      ∃ v, (some "k1" : Option String) = some v ∧ v ≠ "" ∧ v ≠ "k1") ∧
    (require_api_key { defaultSettings with ENV := "prod", API_KEY := "k1", ADMIN_API_KEY := "k2" }
        (some "k1") = none ↔ (some "k1" : Option String) = some "k1" ∧ "k1" ≠ "") ∧
    (require_admin_key { defaultSettings with ENV := "prod", API_KEY := "k1", ADMIN_API_KEY := "k2" }
        (some "k1") = some ⟨401, "Missing X-Admin-Key header"⟩ ↔
      (some "k1" : Option String) = none ∨ (some "k1" : Option String) = some "") ∧
    (require_admin_key { defaultSettings with ENV := "prod", API_KEY := "k1", ADMIN_API_KEY := "k2" }
        (some "k1") = some ⟨403, "Invalid Admin key"⟩ ↔
      ∃ v, (some "k1" : Option String) = some v ∧ v ≠ "" ∧ v ≠ "k2") ∧
    (require_admin_key { defaultSettings with ENV := "prod", API_KEY := "k1", ADMIN_API_KEY := "k2" }
        (some "k1") = none ↔ (some "k1" : Option String) = some "k2" ∧ "k2" ≠ "") :=
  c4_amended_auth_gates
    { defaultSettings with ENV := "prod", API_KEY := "k1", ADMIN_API_KEY := "k2" } rfl (some "k1")

/-- Claim C9: in non-production mode the rate-limit dependency that gates
`/query` admits every request unconditionally: it returns the limiter state
unchanged (no timestamp recorded) and never produces a 429, regardless of
the request identity or any prior history stored in the limiter. -/
theorem c9_rate_limit_bypassed_outside_prod (s : Settings) (h : s.ENV ≠ "prod")
    (rl : RateLimiter) (req : Request) (now : ℚ) :
    check_rate_limit s rl req now = (rl, none) := by
  simp [check_rate_limit, h]

/-- Witness for `c9_rate_limit_bypassed_outside_prod` on the default (local)
configuration with a populated limiter. -/
theorem c9_rate_limit_bypassed_witness :
    check_rate_limit defaultSettings
        { requests_per_minute := 1, requests := fun _ => [0, 1, 2] }
        { x_api_key := some "k", x_forwarded_for := none, client_host := "127.0.0.1" } 3 =
      ({ requests_per_minute := 1, requests := fun _ => [0, 1, 2] }, none) :=
  c9_rate_limit_bypassed_outside_prod defaultSettings (by decide)
    { requests_per_minute := 1, requests := fun _ => [0, 1, 2] }
    { x_api_key := some "k", x_forwarded_for := none, client_host := "127.0.0.1" } 3

/-! ## Theorems for claims C1, C5, C10 -/

/-- Claim C1: the claim says `/query` against a loaded snapshot returns
`answer` plus `citations` with exactly the caller-supplied `k` entries.
In the code, `query` returns a dict keyed `answer`/`citations`, but the
handler reads `result["sources"]`, which raises `KeyError` and is caught
and re-raised as a 500 — so for every loaded snapshot and every request
(`k` included) the endpoint returns an internal error, never the claimed
shape; moreover `request.k` is never forwarded to retrieval. -/
theorem c1_query_endpoint_key_error (r : RAGState) (req : QueryRequest) :
    query_rag (some r) req = .error ⟨500, "KeyError: sources"⟩ ∧
    dictGet (query r.chain req.question) "sources" = none ∧
    dictGet (query r.chain req.question) "citations" =
      some (.citationList
        ((r.chain.retriever req.question).enum.map (fun p => doc_to_citation p.2 p.1))) :=
  ⟨rfl, rfl, rfl⟩

/-- Claim C5: when the persisted metadata record differs from the current
configuration in the provider or in the model, `load_index` raises the
configuration-mismatch `ValueError` (never returns an index), and the
startup path swallows the failure and leaves the published snapshot — and
the whole application state — exactly unchanged. -/
theorem c5_config_mismatch_fails_load_and_preserves_snapshot
    (s : Settings) (index_dir : String) (disk : PersistedIndex) (m : IndexMetadata)
    (get_llm : String → String → String) (st : AppState) (model_name : String)
    (hdir : disk.dirExists = true) (hmeta : disk.metadata = some m)
    (hmismatch : m.provider ≠ s.EMBEDDINGS_PROVIDER ∨ m.model ≠ s.EMBEDDINGS_MODEL) :
    load_index s index_dir disk model_name =
      .error (.valueError
        (if m.provider ≠ s.EMBEDDINGS_PROVIDER then
          "Index was created with " ++ m.provider ++
            ", but current provider is " ++ s.EMBEDDINGS_PROVIDER
        else
          "Index was created with " ++ m.model ++
            ", but current model is " ++ s.EMBEDDINGS_MODEL)) ∧
    startup s get_llm index_dir disk st = st := by
  have hload : ∀ mn, load_index s index_dir disk mn =
      .error (.valueError
        (if m.provider ≠ s.EMBEDDINGS_PROVIDER then
          "Index was created with " ++ m.provider ++
            ", but current provider is " ++ s.EMBEDDINGS_PROVIDER
        else
          "Index was created with " ++ m.model ++
            ", but current model is " ++ s.EMBEDDINGS_MODEL)) := by
    intro mn
    by_cases hp : m.provider = s.EMBEDDINGS_PROVIDER
    · have hm : m.model ≠ s.EMBEDDINGS_MODEL := by
        rcases hmismatch with h1 | h1
        · exact absurd hp h1
        · exact h1
      simp [load_index, hdir, hmeta, hp, hm]
    · simp [load_index, hdir, hmeta, hp]
  refine ⟨hload model_name, ?_⟩
  simp [startup, hload s.EMBEDDINGS_MODEL]

/-- Witness for `c5_config_mismatch_fails_load_and_preserves_snapshot`:
persisted metadata recorded with the openai provider, current configuration
on the default sentence-transformers provider. -/
theorem c5_config_mismatch_witness :
    load_index defaultSettings "./.data/index" c5Disk defaultSettings.EMBEDDINGS_MODEL =
      .error (.valueError
        (if ("openai" : String) ≠ defaultSettings.EMBEDDINGS_PROVIDER then
          "Index was created with " ++ "openai" ++
            ", but current provider is " ++ defaultSettings.EMBEDDINGS_PROVIDER
        else
          "Index was created with " ++ "text-embedding-3-small" ++
            ", but current model is " ++ defaultSettings.EMBEDDINGS_MODEL)) ∧
    startup defaultSettings (fun _ p => p) "./.data/index" c5Disk emptyAppState = emptyAppState :=
  c5_config_mismatch_fails_load_and_preserves_snapshot
    defaultSettings "./.data/index" c5Disk { provider := "openai", model := "text-embedding-3-small" }
    (fun _ p => p) emptyAppState defaultSettings.EMBEDDINGS_MODEL
    rfl rfl (Or.inl (by decide))

/-- Claim C10: when the persisted directory exists but holds no metadata
record, `load_index` performs no compatibility check and returns the index
loaded under the currently configured embeddings, for every configuration
admissible under the `Settings` type annotation. -/
theorem c10_missing_metadata_skips_compat_check
    (s : Settings) (index_dir : String) (disk : PersistedIndex)
    (hdir : disk.dirExists = true) (hmeta : disk.metadata = none)
    (hprov : s.EMBEDDINGS_PROVIDER = "openai" ∨ s.EMBEDDINGS_PROVIDER = "sentence_transformers") :
    load_index s index_dir disk s.EMBEDDINGS_MODEL =
      .ok { embeddings := { provider := s.EMBEDDINGS_PROVIDER,
                            model_name := s.EMBEDDINGS_MODEL },
            search := disk.content } := by
  rcases hprov with hp | hp <;> by_cases hm : s.EMBEDDINGS_MODEL = "" <;>
    simp [load_index, get_embeddings, pyOrStr, hdir, hmeta, hp, hm, Except.map]

/-- Witness for `c10_missing_metadata_skips_compat_check` on the default
configuration and a metadata-less persisted directory. -/
theorem c10_missing_metadata_witness :
    load_index defaultSettings "./.data/index" c10Disk defaultSettings.EMBEDDINGS_MODEL =
      .ok { embeddings := { provider := defaultSettings.EMBEDDINGS_PROVIDER,
                            model_name := defaultSettings.EMBEDDINGS_MODEL },
            search := c10Disk.content } :=
  c10_missing_metadata_skips_compat_check defaultSettings "./.data/index" c10Disk
    rfl rfl (Or.inr rfl)

/-! ## Theorems for claims C6 and C7 -/

/-- Claim C6: starting from a registry whose record for `id` is pending (as
`ingest_documents` creates it), every successive pair of states the
orchestrator produces moves the job status only along
pending to running to completed-or-failed (or leaves it unchanged); in
particular no step changes a terminal status.  Additionally, inserting a
fresh job puts it at pending and does not change the status of any other
job. -/
theorem c6_job_status_transitions (c : IngestStages) (now : ℚ) (id : String) (st : AppState)
    (j : IngestJob) (hjob : st.ingest_jobs id = some j) (hpending : j.status = .pending)
    (id2 : String) (t : ℚ) :
    List.Chain' (fun a b => allowedTransition a b = true)
      ((st :: run_ingest_job_states c now id st).map (fun s2 => jobStatus s2 id)) ∧
    jobStatus (ingest_documents_prod id2 t st) id2 = some .pending ∧
    (∀ id3, id3 ≠ id2 → jobStatus (ingest_documents_prod id2 t st) id3 = jobStatus st id3) := by
  refine ⟨?_, ?_, ?_⟩
  · cases hing : c.ingest with
    | error e =>
      simp [run_ingest_job_states, failStates, hing, AppState.setJob, jobStatus, hjob,
        hpending, allowedTransition, List.chain'_cons]
    | ok chunks =>
      cases hci : c.create_index chunks with
      | error e =>
        simp [run_ingest_job_states, failStates, hing, hci, AppState.setJob, jobStatus, hjob,
          hpending, allowedTransition, List.chain'_cons]
      | ok index =>
        cases hsi : c.save_index index with
        | error e =>
          simp [run_ingest_job_states, failStates, hing, hci, hsi, AppState.setJob, jobStatus,
            hjob, hpending, allowedTransition, List.chain'_cons]
        | ok u =>
          cases hcc : c.create_chain index with
          | error e =>
            simp [run_ingest_job_states, failStates, hing, hci, hsi, hcc, AppState.setJob,
              jobStatus, hjob, hpending, allowedTransition, List.chain'_cons]
          | ok chain =>
            simp [run_ingest_job_states, failStates, hing, hci, hsi, hcc, AppState.setJob,
              jobStatus, hjob, hpending, allowedTransition, List.chain'_cons]
  · simp [ingest_documents_prod, jobStatus, newIngestJob]
  · intro id3 hne
    simp [ingest_documents_prod, jobStatus, hne]

/-- Witness for `c6_job_status_transitions` on a concrete pending job and
an all-success run. -/
theorem c6_job_status_transitions_witness :
    List.Chain' (fun a b => allowedTransition a b = true)
      ((oneJobState :: run_ingest_job_states succeedingStages 1 "job1" oneJobState).map
        (fun s2 => jobStatus s2 "job1")) ∧
    jobStatus (ingest_documents_prod "job2" 2 oneJobState) "job2" = some .pending ∧
    (∀ id3, id3 ≠ "job2" →
      jobStatus (ingest_documents_prod "job2" 2 oneJobState) id3 = jobStatus oneJobState id3) :=
  c6_job_status_transitions succeedingStages 1 "job1" oneJobState
    (newIngestJob "job1" 0) rfl rfl "job2" 2

/-- Claim C7: the published snapshot is replaced exactly when every stage
of the job succeeded.  When any stage raises, the final state of the run
keeps the previously served snapshot bit-for-bit, and the job is marked
failed with the error recorded; when all stages succeed, the new chain and
index are published and the job is marked completed with its chunk
count. -/
theorem c7_snapshot_replaced_only_on_success (c : IngestStages) (now : ℚ) (id : String)
    (st : AppState) (j : IngestJob) (hjob : st.ingest_jobs id = some j) :
    (∀ e, c.result = .error e →
      (run_ingest_job c now id st).rag = st.rag ∧
      jobStatus (run_ingest_job c now id st) id = some .failed ∧
      jobError (run_ingest_job c now id st) id = some e) ∧
    (∀ chunks index chain, c.result = .ok (chunks, index, chain) →
      (run_ingest_job c now id st).rag = some { chain := chain, index := index } ∧
      jobStatus (run_ingest_job c now id st) id = some .completed ∧
      jobChunks (run_ingest_job c now id st) id = some chunks.length) := by
  cases hing : c.ingest with
  | error e0 =>
    constructor
    · intro e he
      rw [IngestStages.result] at he
      simp [hing] at he
      subst he
      simp [run_ingest_job, run_ingest_job_states, failStates, hing, AppState.setJob,
        jobStatus, jobError, hjob]
    · intro chunks index chain h
      rw [IngestStages.result] at h
      simp [hing] at h
  | ok chunks0 =>
    cases hci : c.create_index chunks0 with
    | error e0 =>
      constructor
      · intro e he
        rw [IngestStages.result] at he
        simp [hing, hci] at he
        subst he
        simp [run_ingest_job, run_ingest_job_states, failStates, hing, hci, AppState.setJob,
          jobStatus, jobError, hjob]
      · intro chunks index chain h
        rw [IngestStages.result] at h
        simp [hing, hci] at h
    | ok index0 =>
      cases hsi : c.save_index index0 with
      | error e0 =>
        constructor
        · intro e he
          rw [IngestStages.result] at he
          simp [hing, hci, hsi] at he
          subst he
          simp [run_ingest_job, run_ingest_job_states, failStates, hing, hci, hsi,
            AppState.setJob, jobStatus, jobError, hjob]
        · intro chunks index chain h
          rw [IngestStages.result] at h
          simp [hing, hci, hsi] at h
      | ok u =>
        cases hcc : c.create_chain index0 with
        | error e0 =>
          constructor
          · intro e he
            rw [IngestStages.result] at he
            simp [hing, hci, hsi, hcc] at he
            subst he
            simp [run_ingest_job, run_ingest_job_states, failStates, hing, hci, hsi, hcc,
              AppState.setJob, jobStatus, jobError, hjob]
          · intro chunks index chain h
            rw [IngestStages.result] at h
            simp [hing, hci, hsi, hcc] at h
        | ok chain0 =>
          constructor
          · intro e he
            rw [IngestStages.result] at he
            simp [hing, hci, hsi, hcc] at he
          · intro chunks index chain h
            rw [IngestStages.result] at h
            simp [hing, hci, hsi, hcc] at h
            obtain ⟨h1, h2, h3⟩ := h
            subst h1; subst h2; subst h3
            simp [run_ingest_job, run_ingest_job_states, hing, hci, hsi, hcc,
              AppState.setJob, jobStatus, jobChunks, hjob]

/-- Witness for `c7_snapshot_replaced_only_on_success`: one run whose first
stage raises (snapshot preserved, job failed with the error) and one run
whose stages all succeed (snapshot replaced, job completed). -/
theorem c7_snapshot_replaced_only_on_success_witness :
    ((run_ingest_job failingStages 1 "job1" oneJobState).rag = oneJobState.rag ∧
      jobStatus (run_ingest_job failingStages 1 "job1" oneJobState) "job1" = some .failed ∧
      jobError (run_ingest_job failingStages 1 "job1" oneJobState) "job1" = some "boom") ∧
    ((run_ingest_job succeedingStages 1 "job1" oneJobState).rag =
        some { chain := trivialChain, index := emptyFAISS } ∧
      jobStatus (run_ingest_job succeedingStages 1 "job1" oneJobState) "job1" =
        some .completed ∧
      jobChunks (run_ingest_job succeedingStages 1 "job1" oneJobState) "job1" =
        some (List.length ([] : List Doc))) :=
  ⟨(c7_snapshot_replaced_only_on_success failingStages 1 "job1" oneJobState
      (newIngestJob "job1" 0) rfl).1 "boom" rfl,
   (c7_snapshot_replaced_only_on_success succeedingStages 1 "job1" oneJobState
      (newIngestJob "job1" 0) rfl).2 [] emptyFAISS trivialChain rfl⟩

/-! ## Lemmas about `RateLimiter.check`, towards claim C2 -/

/-- A check never changes the configured ceiling. -/
theorem check_rpm (rl : RateLimiter) (req : Request) (now : ℚ) :
    ((rl.check req now).1).requests_per_minute = rl.requests_per_minute := by
  simp only [RateLimiter.check]
  split <;> rfl

/-- A check leaves every other key's bucket untouched. -/
theorem check_requests_ne (rl : RateLimiter) (req : Request) (now : ℚ) (k : String)
    (hk : RateLimiter.getKey req ≠ k) :
    ((rl.check req now).1).requests k = rl.requests k := by
  simp only [RateLimiter.check]
  split <;> simp [RateLimiter.setKeyList, Ne.symm hk]

/-- After a check on key `k`, the bucket holds the pruned timestamps, with
the current time appended exactly when the call was admitted. -/
theorem check_requests_eq (rl : RateLimiter) (req : Request) (now : ℚ) (k : String)
    (hk : RateLimiter.getKey req = k) :
    ((rl.check req now).1).requests k =
      (rl.requests k).filter (fun u => decide (now - 60 < u)) ++
        (if (rl.check req now).2 = none then [now] else []) := by
  subst hk
  simp only [RateLimiter.check]
  split <;> simp [RateLimiter.setKeyList]

/-- A check is admitted exactly when the pruned bucket is below the
ceiling. -/
theorem check_snd_none_iff (rl : RateLimiter) (req : Request) (now : ℚ) :
    ((rl.check req now).2 = none) ↔
      ((rl.requests (RateLimiter.getKey req)).filter
        (fun u => decide (now - 60 < u))).length < rl.requests_per_minute := by
  simp only [RateLimiter.check]
  split <;> rename_i h <;> simp_all

/-- Re-pruning at a later check subsumes an earlier prune. -/
theorem filter_window_filter (past : List ℚ) (c now : ℚ) (h : c ≤ now) :
    (past.filter (fun u => decide (c - 60 < u))).filter (fun u => decide (now - 60 < u)) =
      past.filter (fun u => decide (now - 60 < u)) := by
  rw [List.filter_filter]
  apply List.filter_congr
  intro u _
  by_cases h1 : now - 60 < u
  · have h2 : c - 60 < u := lt_of_le_of_lt (by linarith) h1
    simp [h1, h2]
  · simp [h1]

/-- The specification-level sliding-window model never holds more than `n`
admitted times inside any trailing 60-second window `(T - 60, T]`. -/
theorem slidingRunFrom_window_bound (n : Nat) (ts : List ℚ) :
    ∀ (adm : List ℚ),
      (∀ u ∈ adm, ∀ t ∈ ts, u ≤ t) →
      List.Pairwise (· ≤ ·) ts →
      (∀ T : ℚ, ((adm.filter (fun u => decide (T - 60 < u) && decide (u ≤ T))).length ≤ n)) →
      (∀ T : ℚ, (((slidingRunFrom n adm ts).filter
        (fun u => decide (T - 60 < u) && decide (u ≤ T))).length ≤ n)) := by
  induction ts with
  | nil =>
    intro adm _ _ hbound
    simpa [slidingRunFrom] using hbound
  | cons t rest ih =>
    intro adm hle hpw hbound
    obtain ⟨hhead, hpw'⟩ := List.pairwise_cons.mp hpw
    by_cases hadm : ((adm.filter (fun u => decide (t - 60 < u))).length < n)
    · have hstep : slidingRunFrom n adm (t :: rest) = slidingRunFrom n (adm ++ [t]) rest := by
        simp [slidingRunFrom, slidingAdmit, hadm]
      rw [hstep]
      apply ih (adm ++ [t])
      · intro u hu s hs
        rcases List.mem_append.mp hu with hu | hu
        · exact hle u hu s (List.mem_cons_of_mem _ hs)
        · simp only [List.mem_singleton] at hu
          subst hu
          exact hhead s hs
      · exact hpw'
      · intro T
        rw [List.filter_append]
        by_cases hT : (decide (T - 60 < t) && decide (t ≤ T)) = true
        · have hsub : List.Sublist
              (adm.filter (fun u => decide (T - 60 < u) && decide (u ≤ T)))
              (adm.filter (fun u => decide (t - 60 < u))) := by
            apply List.monotone_filter_right
            intro a ha
            simp only [Bool.and_eq_true, decide_eq_true_eq] at ha hT ⊢
            linarith [ha.1, ha.2, hT.1, hT.2]
          have hlen := hsub.length_le
          simp only [List.length_append, List.filter_cons, hT, if_true, List.filter_nil,
            List.length_cons, List.length_nil]
          omega
        · simpa [List.filter_cons, hT] using hbound T
    · have hstep : slidingRunFrom n adm (t :: rest) = slidingRunFrom n adm rest := by
        simp [slidingRunFrom, slidingAdmit, hadm]
      rw [hstep]
      exact ih adm (fun u hu s hs => hle u hu s (List.mem_cons_of_mem _ hs)) hpw' hbound

/-- The central invariant of a run of checks, for one identity key `k`:
if the bucket currently holds the previously admitted times pruned at some
instant `c` that precedes every remaining call, then (1) the trace's
admitted times refine the specification-level sliding-window model, and
(2) after the run the bucket again holds the admitted times pruned at some
instant `c2` that precedes everything later than the whole run. -/
theorem check_inv (k : String) (calls : List (Request × ℚ)) :
    ∀ (rl : RateLimiter) (past : List ℚ) (c : ℚ),
      rl.requests k = past.filter (fun u => decide (c - 60 < u)) →
      (∀ u ∈ past, u ≤ c) →
      (∀ p ∈ calls, c ≤ p.2) →
      List.Pairwise (fun a b => a.2 ≤ b.2) calls →
      (past ++ admittedTimes rl calls k =
        slidingRunFrom rl.requests_per_minute past (keyTimes k calls)) ∧
      ∃ c2, c ≤ c2 ∧
        (∀ t, (∀ p ∈ calls, p.2 ≤ t) → c ≤ t → c2 ≤ t) ∧
        (runChecks rl calls).requests_per_minute = rl.requests_per_minute ∧
        ((runChecks rl calls).requests k =
          (past ++ admittedTimes rl calls k).filter (fun u => decide (c2 - 60 < u))) ∧
        (∀ u ∈ past ++ admittedTimes rl calls k, u ≤ c2) := by
  induction calls with
  | nil =>
    intro rl past c hstore hpast _ _
    exact ⟨by simp [admittedTimes, slidingRunFrom, keyTimes],
      c, le_refl c, fun t _ hct => hct, rfl,
      by simpa [admittedTimes, runChecks] using hstore,
      by simpa [admittedTimes] using hpast⟩
  | cons p rest ih =>
    intro rl past c hstore hpast hfut hmono
    obtain ⟨hhead, hmono'⟩ := List.pairwise_cons.mp hmono
    have hcp : c ≤ p.2 := hfut p (List.mem_cons_self _ _)
    have hrest : ∀ q ∈ rest, c ≤ q.2 := fun q hq => le_trans hcp (hhead q hq)
    have hRC : runChecks rl (p :: rest) = runChecks ((rl.check p.1 p.2).1) rest := by
      simp [runChecks]
    have hRPM := check_rpm rl p.1 p.2
    by_cases hgk : RateLimiter.getKey p.1 = k
    · have hprune : (rl.requests (RateLimiter.getKey p.1)).filter
          (fun u => decide (p.2 - 60 < u)) = past.filter (fun u => decide (p.2 - 60 < u)) := by
        rw [hgk, hstore, filter_window_filter past c p.2 hcp]
      have hiff : ((rl.check p.1 p.2).2 = none) ↔
          (past.filter (fun u => decide (p.2 - 60 < u))).length < rl.requests_per_minute := by
        rw [check_snd_none_iff, hprune]
      by_cases hadm :
          (past.filter (fun u => decide (p.2 - 60 < u))).length < rl.requests_per_minute
      · have hnone : (rl.check p.1 p.2).2 = none := hiff.mpr hadm
        have hnew : ((rl.check p.1 p.2).1).requests k =
            (past ++ [p.2]).filter (fun u => decide (p.2 - 60 < u)) := by
          rw [check_requests_eq rl p.1 p.2 k hgk, hstore,
            filter_window_filter past c p.2 hcp, hnone]
          simp [List.filter_append, show p.2 - 60 < p.2 by linarith]
        obtain ⟨h1, c2, hc2, hmin, hrpm, hreqs, hbnd⟩ :=
          ih ((rl.check p.1 p.2).1) (past ++ [p.2]) p.2 hnew
            (by
              intro u hu
              rcases List.mem_append.mp hu with hu | hu
              · exact le_trans (hpast u hu) hcp
              · simp only [List.mem_singleton] at hu
                subst hu
                exact le_refl _)
            hhead hmono'
        rw [hRPM] at h1 hrpm
        have hAdm : admittedTimes rl (p :: rest) k =
            p.2 :: admittedTimes ((rl.check p.1 p.2).1) rest k := by
          simp [admittedTimes, hgk, hnone]
        have hKT : keyTimes k (p :: rest) = p.2 :: keyTimes k rest := by
          simp [keyTimes, hgk]
        have hLL : (past ++ [p.2]) ++ admittedTimes ((rl.check p.1 p.2).1) rest k =
            past ++ p.2 :: admittedTimes ((rl.check p.1 p.2).1) rest k := by
          simp
        constructor
        · rw [hAdm, hKT]
          have hstep : slidingRunFrom rl.requests_per_minute past (p.2 :: keyTimes k rest) =
              slidingRunFrom rl.requests_per_minute (past ++ [p.2]) (keyTimes k rest) := by
            simp [slidingRunFrom, slidingAdmit, hadm]
          rw [hstep, ← h1, ← hLL]
        · refine ⟨c2, le_trans hcp hc2, ?_, ?_, ?_, ?_⟩
          · intro t ht hct
            exact hmin t (fun q hq => ht q (List.mem_cons_of_mem _ hq))
              (ht p (List.mem_cons_self _ _))
          · rw [hRC, hrpm]
          · rw [hRC, hreqs, hAdm, hLL]
          · rw [hAdm]
            intro u hu
            exact hbnd u (by rw [hLL]; exact hu)
      · have hsome : (rl.check p.1 p.2).2 ≠ none := fun hn => hadm (hiff.mp hn)
        have hnew : ((rl.check p.1 p.2).1).requests k =
            past.filter (fun u => decide (p.2 - 60 < u)) := by
          rw [check_requests_eq rl p.1 p.2 k hgk, hstore,
            filter_window_filter past c p.2 hcp]
          simp [hsome]
        obtain ⟨h1, c2, hc2, hmin, hrpm, hreqs, hbnd⟩ :=
          ih ((rl.check p.1 p.2).1) past p.2 hnew
            (fun u hu => le_trans (hpast u hu) hcp) hhead hmono'
        rw [hRPM] at h1 hrpm
        have hAdm : admittedTimes rl (p :: rest) k =
            admittedTimes ((rl.check p.1 p.2).1) rest k := by
          simp [admittedTimes, hsome]
        have hKT : keyTimes k (p :: rest) = p.2 :: keyTimes k rest := by
          simp [keyTimes, hgk]
        constructor
        · rw [hAdm, hKT]
          have hstep : slidingRunFrom rl.requests_per_minute past (p.2 :: keyTimes k rest) =
              slidingRunFrom rl.requests_per_minute past (keyTimes k rest) := by
            simp [slidingRunFrom, slidingAdmit, hadm]
          rw [hstep, ← h1]
        · refine ⟨c2, le_trans hcp hc2, ?_, ?_, ?_, ?_⟩
          · intro t ht hct
            exact hmin t (fun q hq => ht q (List.mem_cons_of_mem _ hq))
              (ht p (List.mem_cons_self _ _))
          · rw [hRC, hrpm]
          · rw [hRC, hreqs, hAdm]
          · rw [hAdm]
            exact hbnd
    · have hreqk : ((rl.check p.1 p.2).1).requests k = rl.requests k :=
        check_requests_ne rl p.1 p.2 k hgk
      obtain ⟨h1, c2, hc2, hmin, hrpm, hreqs, hbnd⟩ :=
        ih ((rl.check p.1 p.2).1) past c (by rw [hreqk]; exact hstore) hpast hrest hmono'
      rw [hRPM] at h1 hrpm
      have hAdm : admittedTimes rl (p :: rest) k =
          admittedTimes ((rl.check p.1 p.2).1) rest k := by
        simp [admittedTimes, hgk]
      have hKT : keyTimes k (p :: rest) = keyTimes k rest := by
        simp [keyTimes, hgk]
      constructor
      · rw [hAdm, hKT, ← h1]
      · refine ⟨c2, hc2, ?_, ?_, ?_, ?_⟩
        · intro t ht hct
          exact hmin t (fun q hq => ht q (List.mem_cons_of_mem _ hq)) hct
        · rw [hRC, hrpm]
        · rw [hRC, hreqs, hAdm]
        · rw [hAdm]
          exact hbnd

/-- Claim C2: for every identity key and every (clock-ordered) sequence of
checks starting from the limiter's initial empty table, (1) at most `n`
(the ceiling) calls are admitted for that key inside any trailing
60-second window `(T - 60, T]` — so an (n+1)-th call inside the window is
rejected with the 429; (2) one further check on that key is admitted
exactly when fewer than `n` admitted timestamps remain inside its own
trailing window — so once the earlier timestamps age past the window,
admission resumes; and (3) that check first prunes the key's bucket down
to the timestamps inside the trailing window, then appends the current
time exactly when it admits. -/
theorem c2_rate_limiter_sliding_window
    (n : Nat) (calls : List (Request × ℚ)) (k : String) (req : Request) (now T : ℚ)
    (hmono : List.Pairwise (fun a b => a.2 ≤ b.2) calls)
    (hkey : RateLimiter.getKey req = k)
    (hlast : ∀ p ∈ calls, p.2 ≤ now) :
    ((admittedTimes (freshLimiter n) calls k).filter
        (fun u => decide (T - 60 < u) && decide (u ≤ T))).length ≤ n ∧
    (((runChecks (freshLimiter n) calls).check req now).2 = none ↔
      ((admittedTimes (freshLimiter n) calls k).filter
        (fun u => decide (now - 60 < u))).length < n) ∧
    ((runChecks (freshLimiter n) calls).check req now).1.requests k =
      (admittedTimes (freshLimiter n) calls k).filter (fun u => decide (now - 60 < u)) ++
        (if ((runChecks (freshLimiter n) calls).check req now).2 = none then [now] else []) := by
  cases calls with
  | nil =>
    refine ⟨?_, ?_, ?_⟩
    · simp [admittedTimes]
    · rw [check_snd_none_iff]
      simp [admittedTimes, runChecks, freshLimiter, hkey]
    · rw [check_requests_eq _ req now k hkey]
      simp [admittedTimes, runChecks, freshLimiter]
  | cons p rest =>
    have hfut : ∀ q ∈ p :: rest, p.2 ≤ q.2 := by
      intro q hq
      rcases List.mem_cons.mp hq with h | h
      · subst h; exact le_refl _
      · exact (List.pairwise_cons.mp hmono).1 q h
    obtain ⟨h1, c2, hc2, hmin, hrpm, hreqs, hbnd⟩ :=
      check_inv k (p :: rest) (freshLimiter n) [] p.2 (by simp [freshLimiter]) (by simp)
        hfut hmono
    simp only [List.nil_append] at h1 hreqs
    have hrpmfresh : (freshLimiter n).requests_per_minute = n := rfl
    rw [hrpmfresh] at h1 hrpm
    have hc2now : c2 ≤ now := hmin now hlast (hlast p (List.mem_cons_self _ _))
    have hPW : List.Pairwise (· ≤ ·) (keyTimes k (p :: rest)) := by
      simp only [keyTimes]
    -- `List.pairwise_map` reshapes the goal onto the filtered calls
      rw [List.pairwise_map]
      exact hmono.filter _
    refine ⟨?_, ?_, ?_⟩
    · rw [h1]
      exact slidingRunFrom_window_bound n (keyTimes k (p :: rest)) []
        (by simp) hPW (by simp) T
    · rw [check_snd_none_iff, hkey, hreqs, hrpm,
        filter_window_filter _ c2 now hc2now]
    · rw [check_requests_eq _ req now k hkey, hreqs,
        filter_window_filter _ c2 now hc2now]

/-- Witness for `c2_rate_limiter_sliding_window`: ceiling 2, three checks
for one key at seconds 0, 10 and 20, probed at second 30. -/
theorem c2_rate_limiter_sliding_window_witness :
    ((admittedTimes (freshLimiter 2) c2Calls "key:k").filter
        (fun u => decide ((30 : ℚ) - 60 < u) && decide (u ≤ (30 : ℚ)))).length ≤ 2 ∧
    (((runChecks (freshLimiter 2) c2Calls).check c2Req 30).2 = none ↔
      ((admittedTimes (freshLimiter 2) c2Calls "key:k").filter
        (fun u => decide ((30 : ℚ) - 60 < u))).length < 2) ∧
    ((runChecks (freshLimiter 2) c2Calls).check c2Req 30).1.requests "key:k" =
      (admittedTimes (freshLimiter 2) c2Calls "key:k").filter
          (fun u => decide ((30 : ℚ) - 60 < u)) ++
        (if ((runChecks (freshLimiter 2) c2Calls).check c2Req 30).2 = none then [(30 : ℚ)]
         else []) :=
  c2_rate_limiter_sliding_window 2 c2Calls "key:k" c2Req 30 30
    (by decide) rfl (by decide)

end FinancialRag
